import Mathlib

/-!
Shallow embedding of the `bright` Glowmarkt-to-InfluxDB exporter
(`src/main.rs`, `src/models.rs`, `src/cli.rs`).

Modelling conventions:
* Instants (`chrono::DateTime<Local>`) are modelled as `Int` epoch seconds;
  `chrono::Duration::days(10)` is the constant `tenDays = 864000` seconds.
  The batching code only adds fixed durations and compares instants, so the
  embedding is faithful to chrono's absolute-time arithmetic.
* `std::time` durations are modelled as whole nanoseconds (`Nat`); the
  panicking `Duration - Duration` subtraction and truncating `as_secs` are
  explicit.
* Rust panics (duration underflow, `Vec` index out of bounds,
  `Option::unwrap` on `None`) are modelled explicitly: `PResult.panic` in
  effectful code, `none` for `Reading::to_influx`.
* `f64` values carried by readings are modelled as rationals; the saturating
  `as i64` cast is `f64_as_i64`.  (NaN does not arise in any claim.)
* HTTP and file side effects are abstracted into environment records whose
  fields give the outcome of each collaborator call; the functions that talk
  to the network additionally return a trace counting the calls they made.
-/

namespace Bright

/-! ### Effect outcomes -/

/-- Outcome of a fallible Rust computation: success, a recoverable `Err`
propagated with the `?` operator, or a process-aborting panic carrying the
panic message. -/
inductive PResult (ε α : Type) where
  | ok : α → PResult ε α
  | err : ε → PResult ε α
  | panic : String → PResult ε α
deriving DecidableEq

/-! ### Date-range batching (`create_date_batches`, `min_dates` in `src/main.rs`) -/

/-- Model of `chrono::Duration::days(10)`, in seconds. -/
def tenDays : Int := 10 * 86400

/-- Model of `min_dates` from `src/main.rs`: the earlier of two instants. -/
def min_dates (d1 d2 : Int) : Int := if d1 < d2 then d1 else d2

/-- The loop of `create_date_batches`, rephrased as recursion.  The Rust code
pushes `(cursor, min(cursor + 10d, end))` and, while the pushed end is still
before `end`, advances the cursor by ten days and repeats; this is exactly
`emit current batch; recurse while its end < end`. -/
def create_date_batches_loop (endd cursor : Int) : List (Int × Int) :=
  if min_dates (cursor + tenDays) endd < endd then
    (cursor, min_dates (cursor + tenDays) endd) ::
      create_date_batches_loop endd (cursor + tenDays)
  else
    [(cursor, min_dates (cursor + tenDays) endd)]
termination_by (endd - cursor).toNat
decreasing_by
  rename_i h
  simp only [min_dates, tenDays] at *
  split at h <;> omega

/-- Model of `create_date_batches` from `src/main.rs`.  Note: the source performs no
validation of `start < end`. -/
def create_date_batches (start endd : Int) : List (Int × Int) :=
  create_date_batches_loop endd start

/-! ### Token expiry (`check_token_expiry` in `src/main.rs`) -/

/-- The decoded token cache JSON object
(`HashMap<String, serde_json::Value>`), restricted to the two accesses the
source performs: `get("token").and_then(Value::as_str)` and
`get("exp").and_then(Value::as_u64)`.  `none` stands for an absent field or
one of the wrong JSON type. -/
structure TokenMap where
  token : Option String
  exp : Option Nat
deriving DecidableEq

def nanosPerSec : Nat := 1000000000

/-- Model of `check_token_expiry` from `src/main.rs`.  `now_ns` is the result of
`SystemTime::now().duration_since(UNIX_EPOCH)` in nanoseconds.  A missing
`exp` field yields the recoverable error the source builds with `ok_or`;
`Duration::new(expiry, 0) - now` uses Rust's panicking duration subtraction,
so an expiry strictly in the past panics; otherwise `as_secs` truncates the
difference to whole seconds and the function returns `diff > 500`. -/
def check_token_expiry (auth_map : TokenMap) (now_ns : Nat) : PResult String Bool :=
  match auth_map.exp with
  | none => .err "Token does not contain an expiry"
  | some expiry =>
    if expiry * nanosPerSec < now_ns then
      .panic "overflow when subtracting durations"
    else
      .ok (decide ((expiry * nanosPerSec - now_ns) / nanosPerSec > 500))

/-! ### Authentication (`get_auth`, `refresh_and_cache_token`,
`get_api_token` in `src/main.rs`) -/

deriving instance DecidableEq for Except

/-- The upstream auth endpoint's reply once the POST transport succeeded:
its HTTP status code and the result of decoding the body as
`HashMap<String, serde_json::Value>`. -/
structure AuthResp where
  status : Nat
  json : Except String TokenMap
deriving DecidableEq

/-- Environment for one run of the token-acquisition code: the outcome of
each collaborator call it may perform.  `cacheRead` is the result of
`read_local_token` (file-open and JSON-decode failures collapsed into the
error string), `send` the transport outcome of the auth POST, `writeFile`
the outcome of `write_auth_to_file`, and `now_ns` the ambient clock. -/
structure Env where
  cacheRead : Except String TokenMap
  send : Except String AuthResp
  writeFile : Except String Unit
  now_ns : Nat

/-- Model of `token.get("token").and_then(Value::as_str).unwrap_or_default()`:
the token string, defaulting to the empty string. -/
def token_str (m : TokenMap) : String := m.token.getD ""

/-- Network/persistence trace of the token-acquisition code: how many auth
POSTs were attempted and which token maps were written to the cache file. -/
structure AuthTrace where
  authCalls : Nat
  saved : List TokenMap
deriving DecidableEq

/-- Model of `get_auth` from `src/main.rs`: POST the credentials, propagate a
transport error with `?`, then decode the body.  The HTTP status of the
response is never inspected. -/
def get_auth (env : Env) : Except String TokenMap :=
  match env.send with
  | .error e => .error e
  | .ok resp => resp.json

/-- Model of `refresh_and_cache_token` from `src/main.rs`: one live auth request;
on success serialize the returned map (infallible for a map) and write it to
the cache file, propagating a write failure with `?`; finally extract the
token string with empty-string default. -/
def refresh_and_cache_token (env : Env) : PResult String String × AuthTrace :=
  match get_auth env with
  | .error e => (.err e, ⟨1, []⟩)
  | .ok new_token =>
    match env.writeFile with
    | .error e => (.err e, ⟨1, []⟩)
    | .ok _ => (.ok (token_str new_token), ⟨1, [new_token]⟩)

/-- Model of `get_api_token` from `src/main.rs`.  With a cache file configured:
`if let Ok(token) = read_local_token(..) { if check_token_expiry(&token)? {
return cached } }` and otherwise fall through to
`refresh_and_cache_token`.  The `?` on `check_token_expiry` propagates the
missing-expiry error out of the function; its panic aborts the process.
Without a cache file: a single `get_auth` call. -/
def get_api_token (cacheFile : Option String) (env : Env) :
    PResult String String × AuthTrace :=
  match cacheFile with
  | some _ =>
    match env.cacheRead with
    | .ok token =>
      match check_token_expiry token env.now_ns with
      | .ok true => (.ok (token_str token), ⟨0, []⟩)
      | .ok false => refresh_and_cache_token env
      | .err e => (.err e, ⟨0, []⟩)
      | .panic m => (.panic m, ⟨0, []⟩)
    | .error _ => refresh_and_cache_token env
  | none =>
    match get_auth env with
    | .error e => (.err e, ⟨1, []⟩)
    | .ok new_token => (.ok (token_str new_token), ⟨1, []⟩)

/-! ### Readings and the transformer (`src/models.rs`) -/

/-- Model of `ResourceQuery` from `src/models.rs` (`from` and `to` are Lean
keywords, hence the trailing underscores). -/
structure ResourceQuery where
  from_ : String
  to_ : String
  period : String
  function : String
deriving DecidableEq

/-- Model of `Reading` from `src/models.rs`.  The `f64` entries of `data` are
modelled as rationals (every value occurring in the claims is exactly
representable as an `f64`). -/
structure Reading where
  status : String
  name : String
  resource_type_id : String
  resource_id : String
  query : ResourceQuery
  data : List (List Rat)
  units : String
  classifier : String
deriving DecidableEq

/-- Model of `InfluxValue` from `src/models.rs`; `time` is the epoch-seconds value of
the `chrono::DateTime<Utc>` the source stores. -/
structure InfluxValue where
  time : Int
  value : Rat
  classifier : String
  measurement : String
deriving DecidableEq

/-- Truncation of a rational towards zero, the rounding used by Rust's
float-to-integer `as` cast. -/
def ratTrunc (q : Rat) : Int := Int.tdiv q.num q.den

def i64_min : Int := -9223372036854775808

def i64_max : Int := 9223372036854775807

/-- Rust's saturating `f64 as i64` cast on the modelled rational values. -/
def f64_as_i64 (q : Rat) : Int := max i64_min (min i64_max (ratTrunc q))

/-- Epoch-seconds value of `chrono::DateTime::<Utc>::MIN_UTC`, the earliest
instant chrono can represent. -/
def chrono_min_ts : Int := -8334632851200

/-- Epoch-seconds value of `chrono::DateTime::<Utc>::MAX_UTC`, the latest
instant chrono can represent. -/
def chrono_max_ts : Int := 8210298412799

/-- Model of `chrono::Utc.timestamp_opt(secs, 0)`: `some` (a single valid instant,
identified with its epoch seconds) exactly when `secs` is within chrono's
representable range, `none` otherwise. -/
def timestamp_opt (secs : Int) : Option Int :=
  if chrono_min_ts ≤ secs ∧ secs ≤ chrono_max_ts then some secs else none

/-- One iteration of the `map` inside `Reading::to_influx`: index `v[0]`
and `v[1]` (panicking — `none` — when the row is shorter than two),
convert the timestamp with `Utc.timestamp_opt(v[0] as i64, 0).unwrap()`
(panicking when chrono cannot represent it), and build the point with both
tag fields set to the reading's classifier. -/
def row_to_influx (classifier : String) (v : List Rat) : Option InfluxValue :=
  match v[0]?, v[1]? with
  | some t, some value =>
    match timestamp_opt (f64_as_i64 t) with
    | some ts => some ⟨ts, value, classifier, classifier⟩
    | none => none
  | _, _ => none

/-- Mapping `row_to_influx` over the rows, propagating a row panic to the
whole call. -/
def to_influx_rows (classifier : String) : List (List Rat) → Option (List InfluxValue)
  | [] => some []
  | v :: rest =>
    match row_to_influx classifier v, to_influx_rows classifier rest with
    | some p, some ps => some (p :: ps)
    | _, _ => none

/-- Model of `Reading::to_influx` from `src/models.rs`: map every row of `data` to a
point.  A panic while mapping any row (modelled by `row_to_influx`
returning `none`) aborts the whole call, hence the `Option` result. -/
def Reading.to_influx (r : Reading) : Option (List InfluxValue) :=
  to_influx_rows r.classifier r.data

/-! ### Entities and the orchestration loop (`process_entities` in
`src/main.rs`) -/

/-- Model of `Resource` from `src/models.rs`. -/
structure Resource where
  name : String
  resource_id : String
  resource_type_id : String
deriving DecidableEq

/-- Model of `Entity` from `src/models.rs`, restricted to the one field the core
logic reads; the remaining eleven serde fields are deserialization plumbing
never consulted by `process_entities`. -/
structure Entity where
  resources : List Resource
deriving DecidableEq

/-- An `influxdb::WriteQuery` as built by `m.into_query("glowmarkt")`:
the measurement name passed to `into_query` plus the written point. -/
structure WriteQuery where
  measurement : String
  point : InfluxValue
deriving DecidableEq

/-- Outcome of `get_readings_for_resource` for a given resource id and date
batch: the decoded `Reading`, or the transport/decode error (collapsed
into a string).  The query string formatting of the batch bounds is
HTTP plumbing outside the modelled core, so the batch is passed as the
pair of instants. -/
def FetchEnv : Type := String → Int × Int → Except String Reading

/-- The partial results of one run: the collected write queries and the
error-log lines emitted for failed (resource, batch) pairs. -/
abbrev RunResults := List WriteQuery × List String

/-- The inner loop of `process_entities` over the date batches of one
resource: fetch, on success push the transformed points (a transformer
panic aborts the run), on failure log and continue.  Also counts the
readings requests attempted. -/
def process_batches (fetch : FetchEnv) (rid : String) :
    List (Int × Int) → PResult String RunResults × Nat
  | [] => (.ok ([], []), 0)
  | b :: rest =>
    match fetch rid b with
    | .ok reading =>
      match reading.to_influx with
      | none => (.panic "Reading.to_influx panicked", 1)
      | some points =>
        match process_batches fetch rid rest with
        | (.ok (qs, logs), n) =>
          (.ok (points.map (fun m => ⟨"glowmarkt", m⟩) ++ qs, logs), 1 + n)
        | (res, n) => (res, 1 + n)
    | .error e =>
      match process_batches fetch rid rest with
      | (.ok (qs, logs), n) =>
        (.ok (qs, (s!"Failed to fetch readings for resource {rid}: {e}") :: logs), 1 + n)
      | (res, n) => (res, 1 + n)

/-- The loop of `process_entities` over one entity's resources. -/
def process_resources (fetch : FetchEnv) (batches : List (Int × Int)) :
    List Resource → PResult String RunResults × Nat
  | [] => (.ok ([], []), 0)
  | r :: rest =>
    match process_batches fetch r.resource_id batches with
    | (.ok (qs, logs), n) =>
      match process_resources fetch batches rest with
      | (.ok (qs2, logs2), n2) => (.ok (qs ++ qs2, logs ++ logs2), n + n2)
      | (res, n2) => (res, n + n2)
    | (res, n) => (res, n)

/-- Model of `process_entities` from `src/main.rs`: iterate entities, then resources,
then date batches, collecting the write queries of successful fetches and
logging each failed (resource, batch) pair without aborting the others. -/
def process_entities (fetch : FetchEnv) (entities : List Entity)
    (date_batches : List (Int × Int)) : PResult String RunResults × Nat :=
  match entities with
  | [] => (.ok ([], []), 0)
  | ent :: rest =>
    match process_resources fetch date_batches ent.resources with
    | (.ok (qs, logs), n) =>
      match process_entities fetch rest date_batches with
      | (.ok (qs2, logs2), n2) => (.ok (qs ++ qs2, logs ++ logs2), n + n2)
      | (res, n2) => (res, n + n2)
    | (res, n) => (res, n)

/-! ### CLI, date range, and the run (`main`, `get_date_range` in
`src/main.rs`, `Cli` in `src/cli.rs`) -/

/-- Model of `Cli` from `src/cli.rs`, with the parsed dates modelled as epoch-second
instants. -/
structure Cli where
  start_date : Option Int
  end_date : Option Int
  gm_username : String
  gm_password : String
  influx_uri : String
  influx_database : String
  influx_token : String
  token_cache_file : Option String

/-- Model of `get_date_range` from `src/main.rs`.  The `(None, None)` branch derives
a default range from the ambient clock (`Local::now()` truncated to local
midnight minus ten days); that chrono plumbing is environment-provided as
`defaultRange`.  No claim depends on its value. -/
def get_date_range (cli : Cli) (defaultRange : Int × Int) :
    Except String (Int × Int) :=
  match cli.start_date, cli.end_date with
  | some s, some e => .ok (s, e)
  | none, none => .ok defaultRange
  | _, _ => .error "Either both dates must be provided, or neither."

/-- Environment for a whole run of `main`. -/
structure MainEnv where
  auth : Env
  defaultRange : Int × Int
  entities : Except String (List Entity)
  fetch : FetchEnv
  influxWrite : Except String Unit

/-- Network trace of one run: auth POSTs, entity-listing GETs, and
readings GETs attempted. -/
structure Trace where
  authCalls : Nat
  entityCalls : Nat
  readingCalls : Nat
deriving DecidableEq

/-- Model of `main` from `src/main.rs`: obtain the API token (before any argument
validation), build the headers (`setup_headers` only fails on tokens that
are not valid header values, which no claim exercises, so it is modelled as
succeeding), validate the date arguments, batch the range, list entities,
process them, and finally write any collected queries to InfluxDB. -/
def main_run (cli : Cli) (env : MainEnv) : PResult String Unit × Trace :=
  match get_api_token cli.token_cache_file env.auth with
  | (.err e, tr) => (.err e, ⟨tr.authCalls, 0, 0⟩)
  | (.panic m, tr) => (.panic m, ⟨tr.authCalls, 0, 0⟩)
  | (.ok _api_token, tr) =>
    match get_date_range cli env.defaultRange with
    | .error e => (.err e, ⟨tr.authCalls, 0, 0⟩)
    | .ok (start, endd) =>
      let batches := create_date_batches start endd
      match env.entities with
      | .error e => (.err e, ⟨tr.authCalls, 1, 0⟩)
      | .ok entities =>
        match process_entities env.fetch entities batches with
        | (.panic m, n) => (.panic m, ⟨tr.authCalls, 1, n⟩)
        | (.err e, n) => (.err e, ⟨tr.authCalls, 1, n⟩)
        | (.ok (readings, _logs), n) =>
          if readings.isEmpty then (.ok (), ⟨tr.authCalls, 1, n⟩)
          else
            match env.influxWrite with
            | .error e => (.err e, ⟨tr.authCalls, 1, n⟩)
            | .ok _ => (.ok (), ⟨tr.authCalls, 1, n⟩)

/-! ## Theorems -/

/-! ### Batching (claims C1, C5) -/

lemma tenDays_pos : (0 : Int) < tenDays := by norm_num [tenDays]

lemma min_dates_le_right (d1 d2 : Int) : min_dates d1 d2 ≤ d2 := by
  simp only [min_dates]; split <;> omega

/-- Master invariant of the batching loop: starting the loop strictly below
`endd` yields a nonempty, ascending, contiguous list of sub-ranges whose
spans are at most ten days, whose first range starts at the cursor and
whose last range ends at `endd`. -/
lemma create_date_batches_loop_spec (endd cursor : Int) (h : cursor < endd) :
    create_date_batches_loop endd cursor ≠ [] ∧
    (∀ p ∈ create_date_batches_loop endd cursor,
       cursor ≤ p.1 ∧ p.1 < p.2 ∧ p.2 - p.1 ≤ tenDays) ∧
    List.Chain' (fun a b => a.2 = b.1) (create_date_batches_loop endd cursor) ∧
    (create_date_batches_loop endd cursor).head?.map Prod.fst = some cursor ∧
    (create_date_batches_loop endd cursor).getLast?.map Prod.snd = some endd := by
  have ht := tenDays_pos
  revert h
  induction cursor using create_date_batches_loop.induct endd with
  | case1 cursor h1 ih =>
    intro _h
    have hlt : cursor + tenDays < endd := by
      simp only [min_dates] at h1
      split at h1 <;> omega
    have he : min_dates (cursor + tenDays) endd = cursor + tenDays := by
      simp only [min_dates, if_pos hlt]
    obtain ⟨hne, hmem, hchain, hhead, hlast⟩ := ih hlt
    rw [create_date_batches_loop.eq_def, if_pos h1, he]
    refine ⟨by simp, ?_, ?_, by simp, ?_⟩
    · intro p hp
      rcases List.mem_cons.mp hp with hp | hp
      · subst hp; exact ⟨le_refl _, by omega, by omega⟩
      · obtain ⟨hp1, hp2, hp3⟩ := hmem p hp
        exact ⟨by omega, hp2, hp3⟩
    · rw [List.chain'_cons']
      refine ⟨?_, hchain⟩
      intro y hy
      have hy' : (create_date_batches_loop endd (cursor + tenDays)).head? = some y :=
        Option.mem_def.mp hy
      rw [hy'] at hhead
      have hfst : y.1 = cursor + tenDays := by simpa using hhead
      show cursor + tenDays = y.1
      exact hfst.symm
    · obtain ⟨q, l', hql⟩ := List.exists_cons_of_ne_nil hne
      rw [hql] at hlast ⊢
      rw [List.getLast?_cons_cons]
      exact hlast
  | case2 cursor h1 =>
    intro h
    have hc : ¬ cursor + tenDays < endd := by
      intro hh
      exact h1 (by simpa [min_dates, if_pos hh] using hh)
    have he : min_dates (cursor + tenDays) endd = endd := by
      simp only [min_dates, if_neg hc]
    rw [create_date_batches_loop.eq_def, if_neg h1, he]
    refine ⟨by simp, ?_, List.chain'_singleton _, by simp, by simp⟩
    intro p hp
    rcases List.mem_cons.mp hp with hp | hp
    · subst hp; exact ⟨le_refl _, h, by omega⟩
    · cases hp

/-- Contiguous, per-range ascending lists of ranges are pairwise
non-overlapping. -/
lemma pairwise_of_contiguous :
    ∀ bs : List (Int × Int), List.Chain' (fun a b => a.2 = b.1) bs →
      (∀ p ∈ bs, p.1 < p.2) →
      List.Pairwise (fun a b => a.2 ≤ b.1) bs := by
  intro bs
  induction bs with
  | nil => simp
  | cons a l ih =>
    intro hc ha
    rw [List.chain'_cons'] at hc
    have hl := ih hc.2 (fun p hp => ha p (List.mem_cons_of_mem _ hp))
    refine List.Pairwise.cons ?_ hl
    intro b hb
    cases l with
    | nil => cases hb
    | cons q l' =>
      have hq : a.2 = q.1 := hc.1 q rfl
      have hqlt : q.1 < q.2 := ha q (by simp)
      rcases List.mem_cons.mp hb with hbq | hb'
      · subst hbq; omega
      · have hq2 : q.2 ≤ b.1 := (List.pairwise_cons.mp hl).1 b hb'
        omega

/-- C1: for every pair of instants `start < end`, `create_date_batches`
returns a nonempty batch list that is ascending (each batch's start is
before its end), contiguous (each batch's end equals the next batch's
start), non-overlapping, whose first batch starts at `start`, whose last
batch ends at `end`, and whose every span is at most ten days. -/
theorem create_date_batches_batch_properties (start endd : Int)
    (h : start < endd) :
    create_date_batches start endd ≠ [] ∧
    (∀ p ∈ create_date_batches start endd, p.1 < p.2 ∧ p.2 - p.1 ≤ tenDays) ∧
    List.Chain' (fun a b => a.2 = b.1) (create_date_batches start endd) ∧
    List.Pairwise (fun a b => a.2 ≤ b.1) (create_date_batches start endd) ∧
    (create_date_batches start endd).head?.map Prod.fst = some start ∧
    (create_date_batches start endd).getLast?.map Prod.snd = some endd := by
  obtain ⟨h1, h2, h3, h4, h5⟩ := create_date_batches_loop_spec endd start h
  exact ⟨h1, fun p hp => ⟨(h2 p hp).2.1, (h2 p hp).2.2⟩, h3,
    pairwise_of_contiguous _ h3 (fun p hp => (h2 p hp).2.1), h4, h5⟩

theorem create_date_batches_batch_properties_witness :
    (0 : Int) < 2000000 ∧
    (create_date_batches 0 2000000 ≠ [] ∧
     (∀ p ∈ create_date_batches 0 2000000, p.1 < p.2 ∧ p.2 - p.1 ≤ tenDays) ∧
     List.Chain' (fun a b => a.2 = b.1) (create_date_batches 0 2000000) ∧
     List.Pairwise (fun a b => a.2 ≤ b.1) (create_date_batches 0 2000000) ∧
     (create_date_batches 0 2000000).head?.map Prod.fst = some 0 ∧
     (create_date_batches 0 2000000).getLast?.map Prod.snd = some 2000000) :=
  ⟨by norm_num, create_date_batches_batch_properties 0 2000000 (by norm_num)⟩

/-- C5 counterexample: `create_date_batches` performs no validation; on the
inverted range `start = 5 > 3 = end` it returns the degenerate batch list
`[(5, 3)]` instead of failing with `InvalidRange`. -/
theorem create_date_batches_no_invalid_range_counterexample :
    create_date_batches 5 3 = [(5, 3)] := by
  rw [create_date_batches, create_date_batches_loop.eq_def]
  norm_num [min_dates, tenDays]

/-- C5 amended: `create_date_batches` does not check its precondition; for
every `start ≥ end` it returns the single degenerate batch `[(start, end)]`
(no `InvalidRange` error exists in the code). -/
theorem create_date_batches_degenerate (start endd : Int) (h : endd ≤ start) :
    create_date_batches start endd = [(start, endd)] := by
  have ht := tenDays_pos
  have hc : ¬ min_dates (start + tenDays) endd < endd := by
    simp only [min_dates]; split <;> omega
  have he : min_dates (start + tenDays) endd = endd := by
    simp only [min_dates]; split <;> omega
  rw [create_date_batches, create_date_batches_loop.eq_def, if_neg hc, he]

theorem create_date_batches_degenerate_witness :
    (3 : Int) ≤ 7 ∧ create_date_batches 7 3 = [(7, 3)] :=
  ⟨by norm_num, create_date_batches_degenerate 7 3 (by norm_num)⟩

/-! ### Token expiry and acquisition (claims C2, C3, C4, C8) -/

/-- C3: contrary to the claim, an already-expired token does not make
`check_token_expiry` return `false`: the `Duration` subtraction underflows
and panics.  Concretely, on a cached token with `exp = 100` read at
`now = 1000` seconds the function panics. -/
theorem check_token_expiry_panics_on_expired :
    check_token_expiry ⟨some "cached", some 100⟩ (1000 * nanosPerSec) =
      .panic "overflow when subtracting durations" := by
  rfl

/-- C2 counterexample: with a cache location given, a cache load that
succeeds but yields a token without an expiry field leads to an aborting
error with zero live auth requests and nothing saved — not to the claimed
"exactly one live auth request saved to the cache before the token is
returned". -/
theorem get_api_token_cached_no_expiry_counterexample :
    get_api_token (some "cache.json")
        ⟨.ok ⟨some "cachedtok", none⟩,
         .ok ⟨200, .ok ⟨some "freshtok", some 99999999⟩⟩, .ok (), 0⟩ =
      (.err "Token does not contain an expiry", ⟨0, []⟩) := by
  rfl

/-- C2 amended: with a cache location given, a loaded token whose expiry
check returns `true` is returned with no auth request and no save; a load
failure or an expiry check returning `false` leads to
`refresh_and_cache_token`, which performs exactly one live auth request and,
when the fresh response decodes and the cache write succeeds, saves the
fresh map and returns its token string; however, a loaded token without an
expiry field propagates the error (no auth request), and a loaded token
whose expiry is strictly in the past panics (no auth request). -/
theorem get_api_token_cache_behaviour (f : String) (env : Env) :
    (∀ t, env.cacheRead = .ok t → check_token_expiry t env.now_ns = .ok true →
       get_api_token (some f) env = (.ok (token_str t), ⟨0, []⟩)) ∧
    (∀ t, env.cacheRead = .ok t → check_token_expiry t env.now_ns = .ok false →
       get_api_token (some f) env = refresh_and_cache_token env) ∧
    (∀ t e, env.cacheRead = .ok t → check_token_expiry t env.now_ns = .err e →
       get_api_token (some f) env = (.err e, ⟨0, []⟩)) ∧
    (∀ t m, env.cacheRead = .ok t → check_token_expiry t env.now_ns = .panic m →
       get_api_token (some f) env = (.panic m, ⟨0, []⟩)) ∧
    (∀ e, env.cacheRead = .error e →
       get_api_token (some f) env = refresh_and_cache_token env) ∧
    (refresh_and_cache_token env).2.authCalls = 1 ∧
    (∀ m, get_auth env = .ok m → env.writeFile = .ok () →
       refresh_and_cache_token env = (.ok (token_str m), ⟨1, [m]⟩)) := by
  refine ⟨?_, ?_, ?_, ?_, ?_, ?_, ?_⟩
  · intro t h1 h2; simp [get_api_token, h1, h2]
  · intro t h1 h2; simp [get_api_token, h1, h2]
  · intro t e h1 h2; simp [get_api_token, h1, h2]
  · intro t m h1 h2; simp [get_api_token, h1, h2]
  · intro e h1; simp [get_api_token, h1]
  · unfold refresh_and_cache_token
    rcases hga : get_auth env with e | m
    · rfl
    · rcases hw : env.writeFile with e | u <;> simp [hw]
  · intro m h1 h2; simp [refresh_and_cache_token, h1, h2]

theorem get_api_token_cache_behaviour_witness :
    check_token_expiry ⟨some "tok", some 10000⟩ 0 = .ok true ∧
    get_api_token (some "cache.json")
        ⟨.ok ⟨some "tok", some 10000⟩, .ok ⟨200, .ok ⟨some "f", some 1⟩⟩,
         .ok (), 0⟩ =
      (.ok "tok", ⟨0, []⟩) := by
  have hexp : check_token_expiry ⟨some "tok", some 10000⟩ 0 = .ok true := by rfl
  refine ⟨hexp, ?_⟩
  have h := (get_api_token_cache_behaviour "cache.json"
      ⟨.ok ⟨some "tok", some 10000⟩, .ok ⟨200, .ok ⟨some "f", some 1⟩⟩,
       .ok (), 0⟩).1 ⟨some "tok", some 10000⟩ rfl hexp
  simpa [token_str] using h

/-- C4 counterexample: a cached token lacking the expiry field does not
trigger a refresh: `get_api_token` aborts with the missing-expiry error and
performs zero live auth requests, even though the environment's auth
endpoint would have answered successfully. -/
theorem get_api_token_missing_expiry_counterexample :
    get_api_token (some "t.json")
        ⟨.ok ⟨some "old", none⟩, .ok ⟨200, .ok ⟨some "new", some 42⟩⟩,
         .ok (), 7⟩ =
      (.err "Token does not contain an expiry", ⟨0, []⟩) := by
  rfl

/-- C4 amended: if the cached token representation lacks an expiry field,
`get_api_token` propagates the missing-expiry error — aborting the run —
and performs no live auth request and no cache write. -/
theorem get_api_token_missing_expiry (f : String) (env : Env) (t : TokenMap)
    (h1 : env.cacheRead = .ok t) (h2 : t.exp = none) :
    get_api_token (some f) env =
      (.err "Token does not contain an expiry", ⟨0, []⟩) := by
  simp [get_api_token, h1, check_token_expiry, h2]

theorem get_api_token_missing_expiry_witness :
    (⟨.ok ⟨some "x", none⟩, .ok ⟨200, .ok ⟨some "y", some 5⟩⟩,
      .ok (), 3⟩ : Env).cacheRead = .ok ⟨some "x", none⟩ ∧
    (⟨some "x", none⟩ : TokenMap).exp = none ∧
    get_api_token (some "c.json")
        ⟨.ok ⟨some "x", none⟩, .ok ⟨200, .ok ⟨some "y", some 5⟩⟩, .ok (), 3⟩ =
      (.err "Token does not contain an expiry", ⟨0, []⟩) :=
  ⟨rfl, rfl,
    get_api_token_missing_expiry "c.json"
      ⟨.ok ⟨some "x", none⟩, .ok ⟨200, .ok ⟨some "y", some 5⟩⟩, .ok (), 3⟩
      ⟨some "x", none⟩ rfl rfl⟩

/-- C8 counterexample: on a non-success HTTP status (401) whose body is a
JSON object lacking both the token string and the expiry field, `get_auth`
succeeds with the decoded map instead of failing, and `get_api_token`
derives the empty-string token from it. -/
theorem get_auth_ignores_status_counterexample :
    get_auth ⟨.error "unused", .ok ⟨401, .ok ⟨none, none⟩⟩, .ok (), 0⟩ =
      .ok ⟨none, none⟩ ∧
    get_api_token none ⟨.error "unused", .ok ⟨401, .ok ⟨none, none⟩⟩,
        .ok (), 0⟩ =
      (.ok "", ⟨1, []⟩) :=
  ⟨rfl, rfl⟩

/-- C8 amended: `get_auth` fails exactly when the POST transport fails or
the response body fails to decode as a JSON object; the HTTP status code is
never inspected, and a decoded body lacking the token string makes the
caller return the empty string as the API token rather than an error. -/
theorem get_auth_no_status_check (env : Env) :
    (∀ e, env.send = .error e → get_auth env = .error e) ∧
    (∀ st j, env.send = .ok ⟨st, j⟩ → get_auth env = j) ∧
    (∀ st m, env.send = .ok ⟨st, .ok m⟩ → m.token = none →
       get_api_token none env = (.ok "", ⟨1, []⟩)) := by
  refine ⟨?_, ?_, ?_⟩
  · intro e h; simp [get_auth, h]
  · intro st j h; simp [get_auth, h]
  · intro st m h1 h2
    simp [get_api_token, get_auth, h1, token_str, h2]

theorem get_auth_no_status_check_witness :
    (⟨.error "u", .ok ⟨500, .ok ⟨none, some 3⟩⟩, .ok (), 0⟩ : Env).send =
      .ok ⟨500, .ok ⟨none, some 3⟩⟩ ∧
    (⟨none, some 3⟩ : TokenMap).token = none ∧
    get_api_token none ⟨.error "u", .ok ⟨500, .ok ⟨none, some 3⟩⟩, .ok (), 0⟩ =
      (.ok "", ⟨1, []⟩) :=
  ⟨rfl, rfl,
    (get_auth_no_status_check
        ⟨.error "u", .ok ⟨500, .ok ⟨none, some 3⟩⟩, .ok (), 0⟩).2.2
      500 ⟨none, some 3⟩ rfl rfl⟩

/-! ### The transformer (claims C7, C10) -/

lemma timestamp_opt_of_isSome {secs : Int} (h : (timestamp_opt secs).isSome) :
    timestamp_opt secs = some secs := by
  unfold timestamp_opt at h ⊢
  by_cases hc : chrono_min_ts ≤ secs ∧ secs ≤ chrono_max_ts
  · rw [if_pos hc]
  · rw [if_neg hc] at h
    simp at h

lemma row_to_influx_of_wellformed (c : String) (v : List Rat)
    (h2 : 2 ≤ v.length)
    (ht : (timestamp_opt (f64_as_i64 (v[0]?.getD 0))).isSome) :
    row_to_influx c v =
      some ⟨f64_as_i64 (v[0]?.getD 0), v[1]?.getD 0, c, c⟩ := by
  rcases v with _ | ⟨a, v⟩
  · simp at h2
  · rcases v with _ | ⟨b, rest⟩
    · simp at h2
    · have hts := timestamp_opt_of_isSome (by simpa using ht)
      simp [row_to_influx, hts]

lemma to_influx_rows_of_wellformed (c : String) :
    ∀ l : List (List Rat),
      (∀ v ∈ l, 2 ≤ v.length ∧
          (timestamp_opt (f64_as_i64 (v[0]?.getD 0))).isSome) →
      to_influx_rows c l =
        some (l.map fun v =>
          ⟨f64_as_i64 (v[0]?.getD 0), v[1]?.getD 0, c, c⟩) := by
  intro l
  induction l with
  | nil => intro _; rfl
  | cons v l ih =>
    intro h
    have hv := h v (by simp)
    have hrow := row_to_influx_of_wellformed c v hv.1 hv.2
    have hrest := ih (fun w hw => h w (by simp [hw]))
    simp [to_influx_rows, hrow, hrest]

/-- C7: for every reading whose data rows each carry at least two numbers
and a chrono-representable timestamp, `to_influx` emits exactly one point
per `[timestamp, value]` row, with that epoch-seconds timestamp, that
value, and both the classifier tag and the measurement tag equal to the
reading's classifier.  A reading with empty data yields `some []` (the
hypothesis is vacuous), not an error. -/
theorem to_influx_one_point_per_row (r : Reading)
    (h : ∀ v ∈ r.data, 2 ≤ v.length ∧
        (timestamp_opt (f64_as_i64 (v[0]?.getD 0))).isSome) :
    r.to_influx =
      some (r.data.map fun v =>
        ⟨f64_as_i64 (v[0]?.getD 0), v[1]?.getD 0,
         r.classifier, r.classifier⟩) :=
  to_influx_rows_of_wellformed r.classifier r.data h

/-- The worked example of the specification: two rows with timestamps
1700000000 and 1700001800 and values 3.5 and 4.0, classifier
`electricity.consumption`. -/
def exampleReading : Reading :=
  { status := "OK", name := "meter", resource_type_id := "rt1",
    resource_id := "r1",
    query := ⟨"2023-11-14T00:00:00", "2023-11-15T00:00:00", "PT30M", "sum"⟩,
    data := [[1700000000, 3.5], [1700001800, 4.0]], units := "kWh",
    classifier := "electricity.consumption" }

theorem to_influx_one_point_per_row_witness :
    (∀ v ∈ exampleReading.data, 2 ≤ v.length ∧
        (timestamp_opt (f64_as_i64 (v[0]?.getD 0))).isSome) ∧
    exampleReading.to_influx =
      some [⟨1700000000, 3.5, "electricity.consumption", "electricity.consumption"⟩,
            ⟨1700001800, 4.0, "electricity.consumption", "electricity.consumption"⟩] := by
  refine ⟨by decide, ?_⟩
  have h := to_influx_one_point_per_row exampleReading (by decide)
  rw [h]
  rfl

lemma to_influx_rows_of_bad_row (c : String) :
    ∀ l : List (List Rat), ∀ v ∈ l, row_to_influx c v = none →
      to_influx_rows c l = none := by
  intro l
  induction l with
  | nil => intro v hv; cases hv
  | cons a l ih =>
    intro v hv hnone
    rcases List.mem_cons.mp hv with rfl | hv'
    · simp [to_influx_rows, hnone]
    · rcases ha : row_to_influx c a with _ | p <;>
        simp [to_influx_rows, ha, ih v hv' hnone]

lemma row_to_influx_short (c : String) (v : List Rat) (h : v.length < 2) :
    row_to_influx c v = none := by
  rcases v with _ | ⟨a, _ | ⟨b, rest⟩⟩
  · rfl
  · rfl
  · simp at h
    omega

lemma row_to_influx_bad_ts (c : String) (v : List Rat) (t : Rat)
    (h0 : v[0]? = some t) (h : timestamp_opt (f64_as_i64 t) = none) :
    row_to_influx c v = none := by
  rcases v with _ | ⟨a, v⟩
  · cases h0
  · have ha : a = t := by simpa using h0
    subst ha
    rcases v with _ | ⟨b, rest⟩
    · rfl
    · simp [row_to_influx, h]

/-- C10: `to_influx` is total only on well-formed rows.  Any reading whose
data contains a row with fewer than two numbers, or a row whose leading
timestamp falls outside chrono's representable range, makes `to_influx`
panic (modelled as `none`) instead of returning an error or skipping the
row. -/
theorem to_influx_panics_on_malformed_row (r : Reading) :
    ((∃ v ∈ r.data, v.length < 2) → r.to_influx = none) ∧
    ((∃ v ∈ r.data, ∃ t, v[0]? = some t ∧
        timestamp_opt (f64_as_i64 t) = none) → r.to_influx = none) := by
  constructor
  · rintro ⟨v, hv, hlen⟩
    exact to_influx_rows_of_bad_row r.classifier r.data v hv
      (row_to_influx_short r.classifier v hlen)
  · rintro ⟨v, hv, t, h0, hts⟩
    exact to_influx_rows_of_bad_row r.classifier r.data v hv
      (row_to_influx_bad_ts r.classifier v t h0 hts)

/-- A reading whose second data row has a single element. -/
def shortRowReading : Reading :=
  { status := "OK", name := "meter", resource_type_id := "rt1",
    resource_id := "r1",
    query := ⟨"2023-11-14T00:00:00", "2023-11-15T00:00:00", "PT30M", "sum"⟩,
    data := [[1700000000, 3.5], [42]], units := "kWh",
    classifier := "electricity.consumption" }

/-- A reading whose single row carries a timestamp (`10^18` seconds) far
beyond chrono's representable range. -/
def hugeTsReading : Reading :=
  { status := "OK", name := "meter", resource_type_id := "rt1",
    resource_id := "r1",
    query := ⟨"2023-11-14T00:00:00", "2023-11-15T00:00:00", "PT30M", "sum"⟩,
    data := [[1000000000000000000, 1.0]], units := "kWh",
    classifier := "electricity.consumption" }

theorem to_influx_panics_on_malformed_row_witness :
    ((∃ v ∈ shortRowReading.data, v.length < 2) ∧
      shortRowReading.to_influx = none) ∧
    ((∃ v ∈ hugeTsReading.data, ∃ t, v[0]? = some t ∧
        timestamp_opt (f64_as_i64 t) = none) ∧
      hugeTsReading.to_influx = none) :=
  ⟨⟨⟨[(42 : Rat)], by simp [shortRowReading], by simp⟩,
    (to_influx_panics_on_malformed_row shortRowReading).1
      ⟨[(42 : Rat)], by simp [shortRowReading], by simp⟩⟩,
   ⟨⟨[(1000000000000000000 : Rat), 1.0], by simp [hugeTsReading],
      1000000000000000000, rfl, by rfl⟩,
    (to_influx_panics_on_malformed_row hugeTsReading).2
      ⟨[(1000000000000000000 : Rat), 1.0], by simp [hugeTsReading],
        1000000000000000000, rfl, by rfl⟩⟩⟩

/-! ### Orchestration (claim C6) -/

/-- The write queries a single (resource, batch) pair contributes to a run:
its transformed points on a successful fetch, nothing on a failed one. -/
def pair_points (fetch : FetchEnv) (rid : String) (b : Int × Int) :
    List WriteQuery :=
  match fetch rid b with
  | .ok rd => (rd.to_influx.getD []).map (fun m => ⟨"glowmarkt", m⟩)
  | .error _ => []

/-- The log lines a single (resource, batch) pair contributes to a run:
one line on a failed fetch, nothing on a successful one. -/
def pair_logs (fetch : FetchEnv) (rid : String) (b : Int × Int) :
    List String :=
  match fetch rid b with
  | .ok _ => []
  | .error e => [s!"Failed to fetch readings for resource {rid}: {e}"]

/-- A successfully fetched reading for this pair (if any) transforms
without panicking. -/
def fetched_transforms (fetch : FetchEnv) (rid : String) (b : Int × Int) :
    Bool :=
  match fetch rid b with
  | .ok rd => rd.to_influx.isSome
  | .error _ => true

lemma process_batches_flatMap (fetch : FetchEnv) (rid : String) :
    ∀ batches : List (Int × Int),
      (∀ b ∈ batches, fetched_transforms fetch rid b = true) →
      (process_batches fetch rid batches).1 =
        .ok (batches.flatMap (pair_points fetch rid),
             batches.flatMap (pair_logs fetch rid)) := by
  intro batches
  induction batches with
  | nil => intro _; rfl
  | cons b rest ih =>
    intro h
    have hb := h b (by simp)
    have hrest := ih (fun x hx => h x (by simp [hx]))
    rcases hrec : process_batches fetch rid rest with ⟨res, n⟩
    rw [hrec] at hrest
    simp only at hrest
    subst hrest
    rcases hf : fetch rid b with e | rd
    · simp [process_batches, hf, hrec, pair_points, pair_logs]
    · have hsome : rd.to_influx.isSome := by
        simpa [fetched_transforms, hf] using hb
      obtain ⟨pts, hpts⟩ := Option.isSome_iff_exists.mp hsome
      simp [process_batches, hf, hpts, hrec, pair_points, pair_logs]

lemma process_resources_flatMap (fetch : FetchEnv) (batches : List (Int × Int)) :
    ∀ rs : List Resource,
      (∀ r ∈ rs, ∀ b ∈ batches,
        fetched_transforms fetch r.resource_id b = true) →
      (process_resources fetch batches rs).1 =
        .ok (rs.flatMap (fun r => batches.flatMap (pair_points fetch r.resource_id)),
             rs.flatMap (fun r => batches.flatMap (pair_logs fetch r.resource_id))) := by
  intro rs
  induction rs with
  | nil => intro _; rfl
  | cons r rest ih =>
    intro h
    have hr := process_batches_flatMap fetch r.resource_id batches
      (h r (by simp))
    have hrest := ih (fun x hx => h x (by simp [hx]))
    rcases hr1 : process_batches fetch r.resource_id batches with ⟨res1, n1⟩
    rcases hr2 : process_resources fetch batches rest with ⟨res2, n2⟩
    rw [hr1] at hr
    rw [hr2] at hrest
    simp only at hr hrest
    subst hr
    subst hrest
    simp [process_resources, hr1, hr2]

lemma process_entities_flatMap (fetch : FetchEnv) (batches : List (Int × Int)) :
    ∀ entities : List Entity,
      (∀ ent ∈ entities, ∀ r ∈ ent.resources, ∀ b ∈ batches,
        fetched_transforms fetch r.resource_id b = true) →
      (process_entities fetch entities batches).1 =
        .ok (entities.flatMap (fun ent => ent.resources.flatMap (fun r =>
               batches.flatMap (pair_points fetch r.resource_id))),
             entities.flatMap (fun ent => ent.resources.flatMap (fun r =>
               batches.flatMap (pair_logs fetch r.resource_id)))) := by
  intro entities
  induction entities with
  | nil => intro _; rfl
  | cons ent rest ih =>
    intro h
    have he := process_resources_flatMap fetch batches ent.resources
      (h ent (by simp))
    have hrest := ih (fun x hx => h x (by simp [hx]))
    rcases hr1 : process_resources fetch batches ent.resources with ⟨res1, n1⟩
    rcases hr2 : process_entities fetch rest batches with ⟨res2, n2⟩
    rw [hr1] at he
    rw [hr2] at hrest
    simp only at he hrest
    subst he
    subst hrest
    simp [process_entities, hr1, hr2]

/-- C6: provided every successfully fetched reading transforms without
panicking, one run's output is exactly the independent concatenation, over
all (entity, resource, batch) triples in iteration order, of each pair's
own contribution: a failed fetch contributes exactly its log line and an
empty point list, and every successfully fetched pair contributes its
points — so one pair's fetch or parse failure never suppresses another
pair's points and never aborts the run. -/
theorem process_entities_isolates_failures (fetch : FetchEnv)
    (entities : List Entity) (batches : List (Int × Int))
    (h : ∀ ent ∈ entities, ∀ r ∈ ent.resources, ∀ b ∈ batches,
        fetched_transforms fetch r.resource_id b = true) :
    (process_entities fetch entities batches).1 =
      .ok (entities.flatMap (fun ent => ent.resources.flatMap (fun r =>
             batches.flatMap (pair_points fetch r.resource_id))),
           entities.flatMap (fun ent => ent.resources.flatMap (fun r =>
             batches.flatMap (pair_logs fetch r.resource_id)))) :=
  process_entities_flatMap fetch batches entities h

/-- A reading answered for resource `r2` in the witness run. -/
def gasReading : Reading :=
  { status := "OK", name := "gas meter", resource_type_id := "rt2",
    resource_id := "r2",
    query := ⟨"2023-11-14T00:00:00", "2023-11-15T00:00:00", "PT30M", "sum"⟩,
    data := [[1700000000, 5.0]], units := "m3", classifier := "gas" }

/-- A fetch collaborator that fails for resource `r1` and succeeds for
resource `r2`. -/
def mixedFetch : FetchEnv := fun rid _b =>
  if rid = "r2" then .ok gasReading else .error "boom"

/-- One entity with two resources. -/
def twoResourceEntity : Entity :=
  ⟨[⟨"meter one", "r1", "t1"⟩, ⟨"meter two", "r2", "t2"⟩]⟩

theorem process_entities_isolates_failures_witness :
    (∀ ent ∈ [twoResourceEntity], ∀ r ∈ ent.resources,
       ∀ b ∈ [((0 : Int), (864000 : Int))],
         fetched_transforms mixedFetch r.resource_id b = true) ∧
    (process_entities mixedFetch [twoResourceEntity]
        [((0 : Int), (864000 : Int))]).1 =
      .ok ([⟨"glowmarkt", ⟨1700000000, 5.0, "gas", "gas"⟩⟩],
           ["Failed to fetch readings for resource r1: boom"]) := by
  refine ⟨by decide, ?_⟩
  have h := process_entities_isolates_failures mixedFetch [twoResourceEntity]
    [((0 : Int), (864000 : Int))] (by decide)
  rw [h]
  rfl

/-! ### Validation versus network activity (claim C9) -/

/-- A CLI invocation providing only the start date. -/
def startOnlyCli : Cli :=
  ⟨some 0, none, "user", "pass", "http://influx", "db", "itok", none⟩

/-- A run environment whose auth endpoint answers successfully. -/
def happyAuthMainEnv : MainEnv :=
  { auth := ⟨.error "no cache", .ok ⟨200, .ok ⟨some "t", some 9999⟩⟩, .ok (), 0⟩,
    defaultRange := (0, 1),
    entities := .ok [],
    fetch := fun _ _ => .error "unused",
    influxWrite := .ok () }

/-- C9 counterexample: a run given only a start date fails argument
validation, yet it has already performed one live auth network request by
then — the validation is not surfaced before network activity. -/
theorem main_run_invalid_args_counterexample :
    main_run startOnlyCli happyAuthMainEnv =
      (.err "Either both dates must be provided, or neither.", ⟨1, 0, 0⟩) := by
  rfl

/-- C9 amended: date-argument validation happens only after token
acquisition.  With no token cache configured and a reachable auth endpoint,
a run given exactly one of the two dates performs exactly one live auth
request, then fails with the invalid-arguments error before the entity
listing or any readings request. -/
theorem main_run_invalid_args_after_auth (cli : Cli) (env : MainEnv)
    (hc : cli.token_cache_file = none)
    (hd : (cli.start_date = none ∧ ∃ e, cli.end_date = some e) ∨
          (∃ s, cli.start_date = some s ∧ cli.end_date = none))
    (hs : ∃ st m, env.auth.send = .ok ⟨st, .ok m⟩) :
    main_run cli env =
      (.err "Either both dates must be provided, or neither.", ⟨1, 0, 0⟩) := by
  obtain ⟨st, m, hsend⟩ := hs
  rcases hd with ⟨h1, e, h2⟩ | ⟨s, h1, h2⟩ <;>
    simp [main_run, get_api_token, get_auth, hsend, hc, get_date_range, h1, h2]

theorem main_run_invalid_args_after_auth_witness :
    startOnlyCli.token_cache_file = none ∧
    (∃ s, startOnlyCli.start_date = some s ∧ startOnlyCli.end_date = none) ∧
    (∃ st m, happyAuthMainEnv.auth.send = .ok ⟨st, .ok m⟩) ∧
    main_run startOnlyCli happyAuthMainEnv =
      (.err "Either both dates must be provided, or neither.", ⟨1, 0, 0⟩) :=
  ⟨rfl, ⟨0, rfl, rfl⟩, ⟨200, ⟨some "t", some 9999⟩, rfl⟩,
    main_run_invalid_args_after_auth startOnlyCli happyAuthMainEnv rfl
      (.inr ⟨0, rfl, rfl⟩) ⟨200, ⟨some "t", some 9999⟩, rfl⟩⟩

end Bright
